import Mathlib

/-!
Verification of the measurement feature of the agrsetumap map viewer
(src/src/App.jsx).

The measurement engine lives in the `MeasureLayer` component: map clicks
append `[lat, lng]` pairs to a point list; for two points the component
renders the turf great-circle distance, for three or more points it closes
the ring, calls the turf spherical-excess area routine and the turf
bounding-box center, and formats the result.  The session state
(`isMeasuring`, `measurePoints`) and its transitions live in `AppContent`.

Points are modelled as pairs of real numbers `(lat, lng)` exactly as the
code stores them.  The turf positions handed to the geometry routines are
`(x, y) = (lng, lat)` pairs, again as in the code.  JavaScript floating
point is modelled by exact real arithmetic; integer string rendering is
modelled computably over `Int`.
-/

namespace Agrsetumap

/-- A clicked point, stored as `[lat, lng]` in the code. -/
abbrev GeoPoint : Type := ℝ × ℝ

/-- Degrees to radians, as turf `degreesToRadians`: `x * pi / 180`. -/
noncomputable def rad (x : ℝ) : ℝ := x * Real.pi / 180

/-- The turf helpers constant `earthRadius` (meters). -/
noncomputable def earthRadius : ℝ := 6371008.8

/-! ### Integer and decimal string rendering (the formatting layer) -/

/-- Decimal digit character for a digit value. -/
def digitChar (d : ℕ) : Char := Char.ofNat (48 + d)

/-- Least-significant-first decimal digit characters of a natural number.
Fuel-based structural recursion so the kernel can evaluate it. -/
def natRevDigitsAux : ℕ → ℕ → List Char
  | 0, _ => []
  | fuel + 1, n =>
    if n < 10 then [digitChar n]
    else digitChar (n % 10) :: natRevDigitsAux fuel (n / 10)

/-- Least-significant-first decimal digit characters of a natural number. -/
def natRevDigits (n : ℕ) : List Char := natRevDigitsAux (n + 1) n

/-- Insert a comma after every three least-significant digits, as the
default locale of `Number.prototype.toLocaleString` groups thousands. -/
def group3 : List Char → List Char
  | [] => []
  | [a] => [a]
  | [a, b] => [a, b]
  | [a, b, c] => [a, b, c]
  | a :: b :: c :: d :: rest => a :: b :: c :: ',' :: group3 (d :: rest)

/-- Decimal string of a natural number, no separators. -/
def natStr (n : ℕ) : String := String.mk (natRevDigits n).reverse

/-- Model of `Number.prototype.toLocaleString()` on an integer value:
decimal digits with comma thousands separators (default en-US grouping). -/
def intSepStr (n : ℤ) : String :=
  if n < 0 then "-" ++ String.mk (group3 (natRevDigits n.natAbs)).reverse
  else String.mk (group3 (natRevDigits n.natAbs)).reverse

/-- Two-digit zero-padded rendering of a remainder below 100. -/
def pad2 (r : ℕ) : String := if r < 10 then "0" ++ natStr r else natStr r

/-- Render `m` hundredths as a signed decimal with exactly two places. -/
def toFixed2Int (m : ℤ) : String :=
  if m < 0 then "-" ++ natStr (m.natAbs / 100) ++ "." ++ pad2 (m.natAbs % 100)
  else natStr (m.natAbs / 100) ++ "." ++ pad2 (m.natAbs % 100)

/-- Model of JavaScript `Math.round`: the integer nearest to `x`, ties
toward positive infinity, i.e. `floor (x + 1/2)`. -/
noncomputable def jsRound (x : ℝ) : ℤ := ⌊x + 1 / 2⌋

/-- Model of JavaScript `Number.prototype.toFixed(2)`: round `x` to a
whole number of hundredths (ties toward positive infinity, per the
ECMAScript pick-the-larger-n rule) and render with two decimal places. -/
noncomputable def jsToFixed2 (x : ℝ) : String := toFixed2Int ⌊x * 100 + 1 / 2⌋

/-- The area formatting in `MeasureLayer`:
`area > 1000000 ? (area/1000000).toFixed(2) + " km²"
               : Math.round(area).toLocaleString() + " m²"`. -/
noncomputable def formatAreaText (area : ℝ) : String :=
  if area > 1000000 then jsToFixed2 (area / 1000000) ++ " km²"
  else intSepStr (jsRound area) ++ " m²"

/-- The display string carries the square-kilometer unit: the claim
formalisation reads the unit off the rendered text as a suffix. -/
def usesKm2 (s : String) : Prop := " km²".data <:+ s.data

/-! ### The turf geometry routines used by the component -/

/-- Cyclic list access: `l.getD (i % l.length)`.  The turf area loop walks
the closed ring with three-way boundary special cases that coincide with
cyclic indexing modulo the list length. -/
def cget (l : List (ℝ × ℝ)) (i : ℕ) : ℝ × ℝ := l.getD (i % l.length) (0, 0)

/-- One term of the turf spherical ring-area accumulator for the triple
`(lower, middle, upper)`: `(rad upper.x - rad lower.x) * sin (rad middle.y)`. -/
noncomputable def areaTermF (p q r : ℝ × ℝ) : ℝ :=
  (rad r.1 - rad p.1) * Real.sin (rad q.2)

/-- The turf ring-area accumulator: sum of `areaTermF` over all cyclic
index triples of the coordinate list. -/
noncomputable def cycSum (l : List (ℝ × ℝ)) : ℝ :=
  ∑ i ∈ Finset.range l.length, areaTermF (cget l i) (cget l (i + 1)) (cget l (i + 2))

/-- turf `ringArea` on a closed ring of `(x, y) = (lng, lat)` positions:
when more than two positions are present, the cyclic accumulator scaled by
`earthRadius^2 / 2`; otherwise zero. -/
noncomputable def ringArea (coords : List (ℝ × ℝ)) : ℝ :=
  if 2 < coords.length then cycSum coords * earthRadius * earthRadius / 2 else 0

/-- turf `area` of a single-ring polygon: absolute value of the signed
ring area (no holes in the component). -/
noncomputable def turfAreaPoly (ring : List (ℝ × ℝ)) : ℝ := |ringArea ring|

/-- Bounding box accumulator of turf `bbox`. -/
structure BBox where
  minX : ℝ
  minY : ℝ
  maxX : ℝ
  maxY : ℝ

/-- One turf `bbox` update step. -/
noncomputable def bboxStep (b : BBox) (p : ℝ × ℝ) : BBox :=
  ⟨min b.minX p.1, min b.minY p.2, max b.maxX p.1, max b.maxY p.2⟩

/-- turf `bbox` over the coordinates: the fold the library performs with
infinite initial bounds, written for a nonempty list as a fold started at
the first coordinate (the two agree on nonempty input). -/
noncomputable def turfBbox (coords : List (ℝ × ℝ)) : BBox :=
  match coords with
  | [] => ⟨0, 0, 0, 0⟩
  | c :: rest => rest.foldl bboxStep ⟨c.1, c.2, c.1, c.2⟩

/-- turf `center`: the midpoint of the bounding box of the geometry. -/
noncomputable def turfCenter (coords : List (ℝ × ℝ)) : ℝ × ℝ :=
  (((turfBbox coords).minX + (turfBbox coords).maxX) / 2,
    ((turfBbox coords).minY + (turfBbox coords).maxY) / 2)

/-- Model of JavaScript `Math.atan2`. -/
noncomputable def jsAtan2 (y x : ℝ) : ℝ :=
  if 0 < x then Real.arctan (y / x)
  else if x < 0 then
    (if 0 ≤ y then Real.arctan (y / x) + Real.pi else Real.arctan (y / x) - Real.pi)
  else
    (if 0 < y then Real.pi / 2 else if y < 0 then -(Real.pi / 2) else 0)

/-- The haversine intermediate `a` of turf `distance`:
`sin(dLat/2)^2 + sin(dLon/2)^2 * cos(lat1) * cos(lat2)` where
`dLat`, `dLon`, `lat1`, `lat2` are the radian locals of the library. -/
noncomputable def havA (c1 c2 : ℝ × ℝ) : ℝ :=
  Real.sin (rad (c2.2 - c1.2) / 2) ^ 2 +
    Real.sin (rad (c2.1 - c1.1) / 2) ^ 2 * Real.cos (rad c1.2) * Real.cos (rad c2.2)

/-- turf `distance` in kilometers between two `(x, y) = (lng, lat)`
positions: the haversine formula evaluated with `atan2`, scaled by the
kilometer factor `earthRadius / 1000`. -/
noncomputable def turfDistance (c1 c2 : ℝ × ℝ) : ℝ :=
  2 * jsAtan2 (Real.sqrt (havA c1 c2)) (Real.sqrt (1 - havA c1 c2)) *
    (earthRadius / 1000)

/-- The validation turf `polygon` performs on each linear ring: at least
four positions, and the first and last position equal (compared
coordinate-wise with strict JavaScript equality). -/
noncomputable def polygonCheck (ring : List (ℝ × ℝ)) : Except String Unit :=
  if ring.length < 4 then
    Except.error ("Each LinearRing of a Polygon must have 4 or more Positions.")
  else if ring.getD (ring.length - 1) (0, 0) ≠ ring.getD 0 (0, 0) then
    Except.error ("First and last Position are not equivalent.")
  else Except.ok ()

/-! ### The MeasureLayer computation -/

/-- The closed turf ring the component builds:
`[...points, points[0]].map(p => [p[1], p[0]])`. -/
noncomputable def closedRing (pts : List GeoPoint) : List (ℝ × ℝ) :=
  (pts ++ [pts.headI]).map fun p => (p.2, p.1)

/-- The `area` local of `MeasureLayer`: turf area of the closed ring. -/
noncomputable def areaOf (pts : List GeoPoint) : ℝ := turfAreaPoly (closedRing pts)

/-- The turf `center` feature coordinates of the closed ring. -/
noncomputable def centerOf (pts : List GeoPoint) : ℝ × ℝ := turfCenter (closedRing pts)

/-- The `distance` local of `MeasureLayer`: turf distance between the two
points, each swapped to `(lng, lat)` position order. -/
noncomputable def distanceOf (p q : GeoPoint) : ℝ :=
  turfDistance (p.2, p.1) (q.2, q.1)

/-- What `MeasureLayer` derives for display: the label text and the
`(lat, lng)` anchor the label marker is placed at. -/
structure Computed where
  text : String
  anchor : GeoPoint

/-- The measurement derivation of `MeasureLayer`: for three or more points
the formatted turf area with the bbox-center anchor (coordinates swapped
back to `(lat, lng)`); for exactly two points the formatted turf distance
anchored at the second point; otherwise nothing is displayed. -/
noncomputable def compute (pts : List GeoPoint) : Option Computed :=
  if 3 ≤ pts.length then
    some ⟨formatAreaText (areaOf pts), ((centerOf pts).2, (centerOf pts).1)⟩
  else if pts.length = 2 then
    some ⟨jsToFixed2 (distanceOf (pts.getD 0 (0, 0)) (pts.getD 1 (0, 0))) ++ " km",
      pts.getD 1 (0, 0)⟩
  else none

/-- The same derivation with the turf `polygon` validation made explicit
as an exception channel: the `try`/`catch` in the component turns an
`Except.error` into nothing displayed.  `computeE = Except.ok ∘ compute`
exactly when no turf call throws. -/
noncomputable def computeE (pts : List GeoPoint) : Except String (Option Computed) :=
  if 3 ≤ pts.length then
    match polygonCheck (closedRing pts) with
    | Except.error e => Except.error e
    | Except.ok _ => Except.ok (compute pts)
  else Except.ok (compute pts)

/-! ### Session state and event handlers (AppContent / MeasureLayer) -/

/-- The measurement session state of `AppContent`:
`isMeasuring` and `measurePoints`. -/
structure Session where
  isMeasuring : Bool
  points : List GeoPoint

/-- The map `click` handler of `MeasureLayer`: append the clicked point
when measuring, otherwise ignore the click. -/
def handleClick (isMeasuring : Bool) (pts : List GeoPoint) (p : GeoPoint) :
    List GeoPoint :=
  if isMeasuring then pts ++ [p] else pts

/-- The `clearMeasurements` handler: empty the point list and leave
measuring mode. -/
def clearMeasurements (_s : Session) : Session := ⟨false, []⟩

/-- The Measure/Stop button handler: toggle `isMeasuring`; when the new
state is measuring, clear the points ("Clear on start"). -/
def toggleMeasure (s : Session) : Session :=
  let newState := !s.isMeasuring
  ⟨newState, if newState then [] else s.points⟩

/-! ### Definitions taken from the specification text -/

/-- Modelled from the spec: a valid `GeoPoint` has latitude in
`[-90, 90]` and longitude in `[-180, 180]`; anything else (the spec also
names NaN, which has no counterpart in exact real arithmetic) is an
invalid coordinate that the engine is required to reject on append. -/
def invalidCoord (p : GeoPoint) : Prop :=
  ¬(-90 ≤ p.1 ∧ p.1 ≤ 90 ∧ -180 ≤ p.2 ∧ p.2 ≤ 180)

/-- Modelled from the spec: the geometric centroid of the closed polygon
ring over the point sequence (first point repeated at the end), computed
with the standard planar shoelace centroid formula on `(x, y) =
(lng, lat)` coordinates; returned as `(lat, lng)`. -/
noncomputable def ringCentroid (pts : List GeoPoint) : GeoPoint :=
  let n := pts.length
  let x := fun i => (pts.getD (i % n) (0, 0)).2
  let y := fun i => (pts.getD (i % n) (0, 0)).1
  let cross := fun i => x i * y (i + 1) - x (i + 1) * y i
  let A := (∑ i ∈ Finset.range n, cross i) / 2
  let cx := (∑ i ∈ Finset.range n, (x i + x (i + 1)) * cross i) / (6 * A)
  let cy := (∑ i ∈ Finset.range n, (y i + y (i + 1)) * cross i) / (6 * A)
  (cy, cx)

/-- Modelled from the spec glossary: the great-circle distance, the
shortest-path distance between two points on the sphere surface, in
kilometers — the spherical law of cosines closed form on the same sphere
radius the library uses. -/
noncomputable def greatCircleKm (p q : GeoPoint) : ℝ :=
  (earthRadius / 1000) *
    Real.arccos (Real.sin (rad p.1) * Real.sin (rad q.1) +
      Real.cos (rad p.1) * Real.cos (rad q.1) * Real.cos (rad (q.2 - p.2)))

/-- Smallest element of a list of reals (fold from the head); `0` on the
empty list.  Used to state the bounding-box center independently of the
turf fold. -/
noncomputable def listLow : List ℝ → ℝ
  | [] => 0
  | x :: xs => xs.foldl min x

/-- Largest element of a list of reals (fold from the head); `0` on the
empty list. -/
noncomputable def listHigh : List ℝ → ℝ
  | [] => 0
  | x :: xs => xs.foldl max x

/-! ### Theorems -/

theorem data_append (s t : String) : (s ++ t).data = s.data ++ t.data := by
  cases s
  cases t
  rfl

theorem natRevDigitsAux_ne_nil (fuel n : ℕ) (h : fuel ≠ 0) :
    natRevDigitsAux fuel n ≠ [] := by
  cases fuel with
  | zero => exact absurd rfl h
  | succ f =>
    unfold natRevDigitsAux
    split <;> simp

theorem group3_ne_nil {l : List Char} (h : l ≠ []) : group3 l ≠ [] := by
  match l with
  | [] => exact absurd rfl h
  | [a] => simp [group3]
  | [a, b] => simp [group3]
  | [a, b, c] => simp [group3]
  | a :: b :: c :: d :: rest => simp [group3]

theorem intSepStr_data_ne_nil (n : ℤ) : (intSepStr n).data ≠ [] := by
  unfold intSepStr
  split
  · rw [data_append]
    simp
  · show (group3 (natRevDigits n.natAbs)).reverse ≠ []
    rw [ne_eq, List.reverse_eq_nil_iff]
    exact group3_ne_nil (natRevDigitsAux_ne_nil _ _ (Nat.succ_ne_zero _))

theorem usesKm2_append_km2 (s : String) : usesKm2 (s ++ " km²") := by
  unfold usesKm2
  rw [data_append]
  exact ⟨s.data, rfl⟩

theorem not_usesKm2_append_m2 (s : String) (h : s.data ≠ []) :
    ¬usesKm2 (s ++ " m²") := by
  intro hs
  unfold usesKm2 at hs
  rw [data_append] at hs
  obtain ⟨t, ht⟩ := hs
  have hyz : s.data.dropLast ++ [s.data.getLast h] = s.data :=
    List.dropLast_append_getLast h
  rw [← hyz, List.append_assoc] at ht
  have hinj := List.append_inj' ht (by simp)
  have h2 : (' ' :: 'k' :: 'm' :: '²' :: [] : List Char) =
      s.data.getLast h :: ' ' :: 'm' :: '²' :: [] := hinj.2
  injection h2 with h3 h4
  injection h4 with h5 h6
  exact absurd h5 (by decide)

/-- Counterexample to claim C1: at a computed area of exactly 1,000,000
square meters the code takes the square-meter branch (the comparison
`area > 1000000` is strict), rendering "1,000,000 m²" and not the
"1.00 km²" the claim requires. -/
theorem formatArea_at_exact_million :
    formatAreaText ((1000000 : ℝ)) = "1,000,000 m²" ∧
      ("1,000,000 m²" : String) ≠ "1.00 km²" := by
  constructor
  · unfold formatAreaText
    rw [if_neg (by norm_num)]
    have hr : jsRound ((1000000 : ℝ)) = 1000000 := by
      unfold jsRound
      rw [Int.floor_eq_iff]
      constructor <;> norm_num
    rw [hr]
    decide
  · decide

/-- Claim C1 amended: for every sequence of length at least three the
display string uses square kilometers (two decimals, suffix " km²")
exactly when the computed area strictly exceeds 1,000,000 m²; at or below
the threshold it uses integer square meters with thousands separators and
suffix " m²", so an area of exactly 1,000,000 m² renders as
"1,000,000 m²". -/
theorem compute_area_text_km2_iff_gt (pts : List GeoPoint) (h : 3 ≤ pts.length) :
    ∃ r, compute pts = some r ∧
      (usesKm2 r.text ↔ 1000000 < areaOf pts) ∧
      (areaOf pts = 1000000 → r.text = "1,000,000 m²") := by
  refine ⟨⟨formatAreaText (areaOf pts), ((centerOf pts).2, (centerOf pts).1)⟩,
    ?_, ?_, ?_⟩
  · unfold compute
    rw [if_pos h]
  · constructor
    · intro hk
      by_contra hle
      push_neg at hle
      have hform : formatAreaText (areaOf pts) =
          intSepStr (jsRound (areaOf pts)) ++ " m²" := by
        unfold formatAreaText
        rw [if_neg (not_lt.mpr hle)]
      rw [hform] at hk
      exact not_usesKm2_append_m2 _ (intSepStr_data_ne_nil _) hk
    · intro hgt
      have hform : formatAreaText (areaOf pts) =
          jsToFixed2 (areaOf pts / 1000000) ++ " km²" := by
        unfold formatAreaText
        rw [if_pos hgt]
      rw [hform]
      exact usesKm2_append_km2 _
  · intro he
    show formatAreaText (areaOf pts) = _
    rw [he]
    unfold formatAreaText
    rw [if_neg (by norm_num)]
    have hr : jsRound ((1000000 : ℝ)) = 1000000 := by
      unfold jsRound
      rw [Int.floor_eq_iff]
      constructor <;> norm_num
    rw [hr]
    decide

/-- Witness for the amended C1 at a concrete three-point sequence. -/
theorem compute_area_text_km2_iff_gt_witness :
    3 ≤ ([((0 : ℝ), 0), ((1 : ℝ), 0), ((0 : ℝ), 1)] : List GeoPoint).length ∧
      ∃ r, compute [((0 : ℝ), 0), ((1 : ℝ), 0), ((0 : ℝ), 1)] = some r ∧
        (usesKm2 r.text ↔
          1000000 < areaOf [((0 : ℝ), 0), ((1 : ℝ), 0), ((0 : ℝ), 1)]) ∧
        (areaOf [((0 : ℝ), 0), ((1 : ℝ), 0), ((0 : ℝ), 1)] = 1000000 →
          r.text = "1,000,000 m²") :=
  ⟨by decide, compute_area_text_km2_iff_gt _ (by decide)⟩

theorem jsAtan2_nonneg {y x : ℝ} (hy : 0 ≤ y) (hx : 0 ≤ x) : 0 ≤ jsAtan2 y x := by
  unfold jsAtan2
  rcases lt_or_eq_of_le hx with hx' | hx'
  · rw [if_pos hx']
    have h := Real.arctan_strictMono.monotone (div_nonneg hy hx'.le)
    rwa [Real.arctan_zero] at h
  · rw [if_neg (by rw [← hx']; exact lt_irrefl 0),
      if_neg (by rw [← hx']; exact lt_irrefl 0)]
    rcases lt_or_eq_of_le hy with hy' | hy'
    · rw [if_pos hy']
      linarith [Real.pi_pos]
    · rw [if_neg (by rw [← hy']; exact lt_irrefl 0),
        if_neg (by rw [← hy']; exact lt_irrefl 0)]

theorem rad_sub (x y : ℝ) : rad (x - y) = rad x - rad y := by
  unfold rad
  ring

theorem rad_bounds {x : ℝ} (h1 : -90 ≤ x) (h2 : x ≤ 90) :
    -(Real.pi / 2) ≤ rad x ∧ rad x ≤ Real.pi / 2 := by
  unfold rad
  have hπ := Real.pi_pos
  constructor <;> nlinarith

theorem hav_eq_arccos (φ1 φ2 Δ : ℝ)
    (h1l : -(Real.pi / 2) ≤ φ1) (h1r : φ1 ≤ Real.pi / 2)
    (h2l : -(Real.pi / 2) ≤ φ2) (h2r : φ2 ≤ Real.pi / 2) :
    2 * jsAtan2
        (Real.sqrt (Real.sin ((φ2 - φ1) / 2) ^ 2 +
          Real.sin (Δ / 2) ^ 2 * Real.cos φ1 * Real.cos φ2))
        (Real.sqrt (1 - (Real.sin ((φ2 - φ1) / 2) ^ 2 +
          Real.sin (Δ / 2) ^ 2 * Real.cos φ1 * Real.cos φ2))) =
      Real.arccos (Real.sin φ1 * Real.sin φ2 +
        Real.cos φ1 * Real.cos φ2 * Real.cos Δ) := by
  have hπ := Real.pi_pos
  set t := Real.sin φ1 * Real.sin φ2 + Real.cos φ1 * Real.cos φ2 * Real.cos Δ with ht
  have hcos1 : 0 ≤ Real.cos φ1 := Real.cos_nonneg_of_mem_Icc ⟨h1l, h1r⟩
  have hcos2 : 0 ≤ Real.cos φ2 := Real.cos_nonneg_of_mem_Icc ⟨h2l, h2r⟩
  have e1 : Real.sin ((φ2 - φ1) / 2) ^ 2 = 1 / 2 - Real.cos (φ2 - φ1) / 2 := by
    have h := Real.sin_sq_eq_half_sub ((φ2 - φ1) / 2)
    rwa [show 2 * ((φ2 - φ1) / 2) = φ2 - φ1 by ring] at h
  have e2 : Real.sin (Δ / 2) ^ 2 = 1 / 2 - Real.cos Δ / 2 := by
    have h := Real.sin_sq_eq_half_sub (Δ / 2)
    rwa [show 2 * (Δ / 2) = Δ by ring] at h
  have haeq : Real.sin ((φ2 - φ1) / 2) ^ 2 +
      Real.sin (Δ / 2) ^ 2 * Real.cos φ1 * Real.cos φ2 = (1 - t) / 2 := by
    rw [e1, e2, ht, Real.cos_sub]
    ring
  have hprod : 0 ≤ Real.cos φ1 * Real.cos φ2 := mul_nonneg hcos1 hcos2
  have ht1 : t ≤ 1 := by
    have hΔ : Real.cos Δ ≤ 1 := Real.cos_le_one Δ
    have h12 : Real.cos φ1 * Real.cos φ2 * Real.cos Δ ≤ Real.cos φ1 * Real.cos φ2 :=
      mul_le_of_le_one_right hprod hΔ
    have hcs : Real.cos (φ1 - φ2) ≤ 1 := Real.cos_le_one _
    rw [Real.cos_sub] at hcs
    rw [ht]
    linarith
  have ht2 : -1 ≤ t := by
    have hΔ : -1 ≤ Real.cos Δ := Real.neg_one_le_cos Δ
    have h12 : -(Real.cos φ1 * Real.cos φ2) ≤ Real.cos φ1 * Real.cos φ2 * Real.cos Δ := by
      nlinarith
    have hca : Real.cos (φ1 + φ2) ≤ 1 := Real.cos_le_one (φ1 + φ2)
    rw [Real.cos_add] at hca
    rw [ht]
    linarith
  rw [haeq]
  set c := Real.arccos t with hc
  have hcc : Real.cos c = t := Real.cos_arccos ht2 ht1
  have hc0 : 0 ≤ c := Real.arccos_nonneg t
  have hcpi : c ≤ Real.pi := Real.arccos_le_pi t
  have hsin : Real.sqrt ((1 - t) / 2) = Real.sin (c / 2) := by
    rw [Real.sin_half_eq_sqrt hc0 (by linarith), hcc]
  have hcos : Real.sqrt (1 - (1 - t) / 2) = Real.cos (c / 2) := by
    rw [Real.cos_half (by linarith) hcpi, hcc,
      show 1 - (1 - t) / 2 = (1 + t) / 2 by ring]
  rw [hsin, hcos]
  rcases lt_or_eq_of_le (show c / 2 ≤ Real.pi / 2 by linarith) with hlt | heq2
  · have hcpos : 0 < Real.cos (c / 2) :=
      Real.cos_pos_of_mem_Ioo ⟨by linarith, hlt⟩
    unfold jsAtan2
    rw [if_pos hcpos, ← Real.tan_eq_sin_div_cos,
      Real.arctan_tan (by linarith) hlt]
    ring
  · rw [heq2, Real.cos_pi_div_two, Real.sin_pi_div_two]
    unfold jsAtan2
    rw [if_neg (lt_irrefl 0), if_neg (lt_irrefl 0), if_pos one_pos]
    linarith

theorem distanceOf_eq_greatCircleKm (p q : GeoPoint)
    (hp1 : -90 ≤ p.1) (hp2 : p.1 ≤ 90) (hq1 : -90 ≤ q.1) (hq2 : q.1 ≤ 90) :
    distanceOf p q = greatCircleKm p q := by
  unfold distanceOf turfDistance havA greatCircleKm
  dsimp only
  have hps := rad_bounds hp1 hp2
  have hqs := rad_bounds hq1 hq2
  rw [rad_sub q.1 p.1]
  rw [hav_eq_arccos (rad p.1) (rad q.1) (rad (q.2 - p.2)) hps.1 hps.2 hqs.1 hqs.2]
  ring

/-- Counterexample to claim C6: the haversine distance of the two distinct
points (90, 0) and (90, 10) — both at the north pole, different
longitudes — is zero, refuting "km = 0 iff the two points are identical". -/
theorem distance_zero_at_distinct_pole_points :
    distanceOf ((90 : ℝ), 0) ((90 : ℝ), 10) = 0 ∧
      (((90 : ℝ), (0 : ℝ)) : GeoPoint) ≠ ((90 : ℝ), (10 : ℝ)) := by
  constructor
  · unfold distanceOf turfDistance havA
    dsimp only
    have h90 : rad 90 = Real.pi / 2 := by
      unfold rad
      ring
    have h0 : rad ((90 : ℝ) - 90) = 0 := by
      norm_num [rad]
    rw [h0, h90, Real.cos_pi_div_two]
    norm_num [Real.sin_zero, Real.sqrt_zero, Real.sqrt_one]
    unfold jsAtan2
    rw [if_pos one_pos]
    norm_num [Real.arctan_zero]
  · intro h
    rw [Prod.mk.injEq] at h
    exact absurd h.2 (by norm_num)

/-- Claim C6 amended: for every 2-point sequence the computed distance is
nonnegative, and identical points give distance zero.  (The converse —
distance zero only for identical coordinate pairs — is false at the
poles.) -/
theorem distance_nonneg_and_zero_of_eq (p q : GeoPoint) :
    0 ≤ distanceOf p q ∧ (p = q → distanceOf p q = 0) := by
  constructor
  · unfold distanceOf turfDistance
    have hat := jsAtan2_nonneg (Real.sqrt_nonneg (havA (p.2, p.1) (q.2, q.1)))
      (Real.sqrt_nonneg (1 - havA (p.2, p.1) (q.2, q.1)))
    have hR : (0 : ℝ) ≤ earthRadius / 1000 := by
      unfold earthRadius
      norm_num
    exact mul_nonneg (mul_nonneg (by norm_num) hat) hR
  · intro hpq
    subst hpq
    unfold distanceOf turfDistance havA
    dsimp only
    rw [sub_self, sub_self, show rad 0 = 0 by unfold rad; ring]
    norm_num [Real.sin_zero, Real.sqrt_zero, Real.sqrt_one]
    unfold jsAtan2
    rw [if_pos one_pos]
    norm_num [Real.arctan_zero]

/-- Witness for the amended C6 at a pair of identical points. -/
theorem distance_nonneg_and_zero_of_eq_witness :
    0 ≤ distanceOf ((0 : ℝ), 0) ((0 : ℝ), 0) ∧
      distanceOf ((0 : ℝ), 0) ((0 : ℝ), 0) = 0 :=
  ⟨(distance_nonneg_and_zero_of_eq _ _).1,
    (distance_nonneg_and_zero_of_eq ((0 : ℝ), 0) ((0 : ℝ), 0)).2 rfl⟩

/-- Claim C8: for every 2-point sequence of valid latitudes, the component
displays the turf distance rendered to two decimal places with suffix
" km", anchored at the second point; and the turf haversine value equals
the spec great-circle distance on the same sphere. -/
theorem compute_two_point_distance_spec (p q : GeoPoint)
    (hp1 : -90 ≤ p.1) (hp2 : p.1 ≤ 90) (hq1 : -90 ≤ q.1) (hq2 : q.1 ≤ 90) :
    compute [p, q] = some ⟨jsToFixed2 (distanceOf p q) ++ " km", q⟩ ∧
      distanceOf p q = greatCircleKm p q := by
  constructor
  · unfold compute
    rw [if_neg (by simp), if_pos (by simp)]
    rfl
  · exact distanceOf_eq_greatCircleKm p q hp1 hp2 hq1 hq2

/-- Witness for C8 at the equator points (0, 0) and (0, 1). -/
theorem compute_two_point_distance_spec_witness :
    (-90 ≤ (((0 : ℝ), (0 : ℝ)) : GeoPoint).1 ∧
        (((0 : ℝ), (0 : ℝ)) : GeoPoint).1 ≤ 90 ∧
        -90 ≤ (((0 : ℝ), (1 : ℝ)) : GeoPoint).1 ∧
        (((0 : ℝ), (1 : ℝ)) : GeoPoint).1 ≤ 90) ∧
      (compute [((0 : ℝ), 0), ((0 : ℝ), 1)] =
          some ⟨jsToFixed2 (distanceOf ((0 : ℝ), 0) ((0 : ℝ), 1)) ++ " km",
            ((0 : ℝ), 1)⟩ ∧
        distanceOf ((0 : ℝ), 0) ((0 : ℝ), 1) =
          greatCircleKm ((0 : ℝ), 0) ((0 : ℝ), 1)) :=
  ⟨⟨by norm_num, by norm_num, by norm_num, by norm_num⟩,
    compute_two_point_distance_spec _ _ (by norm_num) (by norm_num)
      (by norm_num) (by norm_num)⟩

theorem cget_rotate_one (l : List (ℝ × ℝ)) (hl : l ≠ []) (i : ℕ) :
    cget (l.rotate 1) i = cget l (i + 1) := by
  have hn : 0 < l.length := List.length_pos.mpr hl
  unfold cget
  rw [List.length_rotate, List.getD_eq_getD_get?, List.getD_eq_getD_get?,
    List.get?_rotate (Nat.mod_lt _ hn), Nat.mod_add_mod]

theorem cget_cycle (l : List (ℝ × ℝ)) (j : ℕ) :
    cget l (l.length + j) = cget l j := by
  unfold cget
  rw [Nat.add_mod_left]

theorem headI_eq_getD (l : List (ℝ × ℝ)) (hl : l ≠ []) :
    l.headI = l.getD 0 (0, 0) := by
  cases l with
  | nil => exact absurd rfl hl
  | cons a t => rfl

theorem cycSum_rotate_one (l : List (ℝ × ℝ)) (hl : l ≠ []) :
    cycSum (l.rotate 1) = cycSum l := by
  have step1 : cycSum (l.rotate 1) =
      ∑ i ∈ Finset.range l.length,
        areaTermF (cget l (i + 1)) (cget l (i + 1 + 1)) (cget l (i + 1 + 2)) := by
    unfold cycSum
    rw [List.length_rotate]
    refine Finset.sum_congr rfl fun i _ => ?_
    rw [cget_rotate_one l hl i, cget_rotate_one l hl (i + 1),
      cget_rotate_one l hl (i + 2)]
  have key : areaTermF (cget l l.length) (cget l (l.length + 1))
      (cget l (l.length + 2)) =
      areaTermF (cget l 0) (cget l 1) (cget l 2) := by
    rw [show l.length = l.length + 0 from rfl, cget_cycle]
    rw [show l.length + 0 + 1 = l.length + 1 from rfl, cget_cycle l 1]
    rw [show l.length + 0 + 2 = l.length + 2 from rfl, cget_cycle l 2]
  have h := Finset.sum_range_succ'
    (fun j => areaTermF (cget l j) (cget l (j + 1)) (cget l (j + 2))) l.length
  rw [Finset.sum_range_succ] at h
  simp only [Nat.zero_add] at h
  rw [step1]
  unfold cycSum
  linarith [h, key]

theorem cycSum_rotate (l : List (ℝ × ℝ)) (hl : l ≠ []) (k : ℕ) :
    cycSum (l.rotate k) = cycSum l := by
  induction k with
  | zero => rw [List.rotate_zero]
  | succ k ih =>
    have hne : l.rotate k ≠ [] := by
      intro h0
      apply hl
      have hlen := congrArg List.length h0
      rw [List.length_rotate] at hlen
      exact List.length_eq_zero.mp hlen
    rw [show l.rotate (k + 1) = (l.rotate k).rotate 1 from
      (List.rotate_rotate l k 1).symm, cycSum_rotate_one _ hne, ih]

theorem cycSum_closed (b : List (ℝ × ℝ)) (hb : 3 ≤ b.length) :
    cycSum (b ++ [b.headI]) = cycSum b := by
  have hbne : b ≠ [] := by
    intro h0
    rw [h0] at hb
    simp at hb
  obtain ⟨k, hk⟩ : ∃ k, b.length = k + 3 := ⟨b.length - 3, by omega⟩
  have hmlen : (b ++ [b.headI]).length = k + 4 := by
    simp [hk]
  have hcg : ∀ j, j < k + 3 → cget (b ++ [b.headI]) j = b.getD j (0, 0) := by
    intro j hj
    unfold cget
    rw [hmlen, Nat.mod_eq_of_lt (by omega), List.getD_append _ _ _ _ (by omega)]
  have hcgb : ∀ j, j < k + 3 → cget b j = b.getD j (0, 0) := by
    intro j hj
    unfold cget
    rw [hk, Nat.mod_eq_of_lt (by omega)]
  have hcg3 : cget (b ++ [b.headI]) (k + 3) = b.getD 0 (0, 0) := by
    unfold cget
    rw [hmlen, Nat.mod_eq_of_lt (by omega),
      List.getD_append_right _ _ _ _ (by omega), hk,
      show k + 3 - (k + 3) = 0 by omega]
    exact headI_eq_getD b hbne
  have hcg4 : cget (b ++ [b.headI]) (k + 4) = b.getD 0 (0, 0) := by
    unfold cget
    rw [hmlen, Nat.mod_self, List.getD_append _ _ _ _ (by omega)]
  have hcg5 : cget (b ++ [b.headI]) (k + 5) = b.getD 1 (0, 0) := by
    unfold cget
    rw [hmlen, show k + 5 = (k + 4) + 1 by omega, Nat.add_mod_left,
      Nat.mod_eq_of_lt (by omega), List.getD_append _ _ _ _ (by omega)]
  have hb3 : cget b (k + 3) = b.getD 0 (0, 0) := by
    unfold cget
    rw [hk, Nat.mod_self]
  have hb4 : cget b (k + 4) = b.getD 1 (0, 0) := by
    unfold cget
    rw [hk, show k + 4 = (k + 3) + 1 by omega, Nat.add_mod_left,
      Nat.mod_eq_of_lt (by omega)]
  have hL := Finset.sum_range_succ
    (fun i => areaTermF (cget (b ++ [b.headI]) i) (cget (b ++ [b.headI]) (i + 1))
      (cget (b ++ [b.headI]) (i + 2))) (k + 3)
  have hL2 := Finset.sum_range_succ
    (fun i => areaTermF (cget (b ++ [b.headI]) i) (cget (b ++ [b.headI]) (i + 1))
      (cget (b ++ [b.headI]) (i + 2))) (k + 2)
  have hL3 : (∑ i ∈ Finset.range (k + 4), areaTermF (cget (b ++ [b.headI]) i)
      (cget (b ++ [b.headI]) (i + 1)) (cget (b ++ [b.headI]) (i + 2))) =
      (∑ i ∈ Finset.range (k + 2), areaTermF (cget (b ++ [b.headI]) i)
        (cget (b ++ [b.headI]) (i + 1)) (cget (b ++ [b.headI]) (i + 2))) +
      areaTermF (cget (b ++ [b.headI]) (k + 2)) (cget (b ++ [b.headI]) (k + 2 + 1))
        (cget (b ++ [b.headI]) (k + 2 + 2)) +
      areaTermF (cget (b ++ [b.headI]) (k + 3)) (cget (b ++ [b.headI]) (k + 3 + 1))
        (cget (b ++ [b.headI]) (k + 3 + 2)) := by
    rw [show k + 4 = k + 3 + 1 by omega, hL, hL2]
  have hR : (∑ i ∈ Finset.range (k + 3),
      areaTermF (cget b i) (cget b (i + 1)) (cget b (i + 2))) =
      (∑ i ∈ Finset.range (k + 2),
        areaTermF (cget b i) (cget b (i + 1)) (cget b (i + 2))) +
      areaTermF (cget b (k + 2)) (cget b (k + 2 + 1)) (cget b (k + 2 + 2)) := by
    rw [show k + 3 = k + 2 + 1 by omega]
    exact Finset.sum_range_succ
      (fun i => areaTermF (cget b i) (cget b (i + 1)) (cget b (i + 2))) (k + 2)
  have hcg31 : cget (b ++ [b.headI]) (k + 2 + 1) = b.getD 0 (0, 0) := by
    rw [show k + 2 + 1 = k + 3 by omega]
    exact hcg3
  have hcg42 : cget (b ++ [b.headI]) (k + 2 + 2) = b.getD 0 (0, 0) := by
    rw [show k + 2 + 2 = k + 4 by omega]
    exact hcg4
  have hcg41 : cget (b ++ [b.headI]) (k + 3 + 1) = b.getD 0 (0, 0) := by
    rw [show k + 3 + 1 = k + 4 by omega]
    exact hcg4
  have hcg52 : cget (b ++ [b.headI]) (k + 3 + 2) = b.getD 1 (0, 0) := by
    rw [show k + 3 + 2 = k + 5 by omega]
    exact hcg5
  have hb31 : cget b (k + 2 + 1) = b.getD 0 (0, 0) := by
    rw [show k + 2 + 1 = k + 3 by omega]
    exact hb3
  have hb42 : cget b (k + 2 + 2) = b.getD 1 (0, 0) := by
    rw [show k + 2 + 2 = k + 4 by omega]
    exact hb4
  have hsum : (∑ i ∈ Finset.range (k + 2),
      areaTermF (cget (b ++ [b.headI]) i) (cget (b ++ [b.headI]) (i + 1))
        (cget (b ++ [b.headI]) (i + 2))) =
      ∑ i ∈ Finset.range (k + 2),
        areaTermF (cget b i) (cget b (i + 1)) (cget b (i + 2)) := by
    refine Finset.sum_congr rfl fun i hi => ?_
    simp only [Finset.mem_range] at hi
    rw [hcg i (by omega), hcg (i + 1) (by omega), hcgb i (by omega),
      hcgb (i + 1) (by omega)]
    rcases Nat.lt_or_ge (i + 2) (k + 3) with hlt | hge
    · rw [hcg (i + 2) hlt, hcgb (i + 2) hlt]
    · have he : i + 2 = k + 3 := by omega
      rw [he, hcg3, hb3]
  unfold cycSum
  rw [hmlen, hk, hL3, hR, hsum, hcg31, hcg42, hcg52,
    hcg (k + 2) (by omega), hcgb (k + 2) (by omega), hb31, hb42]
  unfold areaTermF
  ring

theorem ringArea_closed (b : List (ℝ × ℝ)) (hb : 3 ≤ b.length) :
    ringArea (b ++ [b.headI]) = cycSum b * earthRadius * earthRadius / 2 := by
  unfold ringArea
  rw [if_pos (by simp; omega), cycSum_closed b hb]

theorem areaOf_closed (pts : List GeoPoint) (h : 3 ≤ pts.length) :
    areaOf pts =
      |cycSum (pts.map fun p => (p.2, p.1)) * earthRadius * earthRadius / 2| := by
  have hne : pts ≠ [] := by
    intro h0
    rw [h0] at h
    simp at h
  have hhead : (pts.map fun p => (p.2, p.1)).headI = (pts.headI.2, pts.headI.1) := by
    cases pts with
    | nil => exact absurd rfl hne
    | cons a t => rfl
  have hcr : closedRing pts = (pts.map fun p => (p.2, p.1)) ++
      [(pts.map fun p => (p.2, p.1)).headI] := by
    unfold closedRing
    rw [List.map_append, hhead]
    simp
  unfold areaOf turfAreaPoly
  rw [hcr, ringArea_closed _ (by rw [List.length_map]; exact h)]

theorem polygonCheck_closedRing (p : GeoPoint) (rest : List GeoPoint)
    (h : 2 ≤ rest.length) :
    polygonCheck (closedRing (p :: rest)) = Except.ok () := by
  have hcr : closedRing (p :: rest) =
      (p.2, p.1) :: ((rest.map fun q => (q.2, q.1)) ++ [(p.2, p.1)]) := by
    simp [closedRing]
  rw [hcr]
  have hlen : ((p.2, p.1) :: ((rest.map fun q => (q.2, q.1)) ++ [(p.2, p.1)])).length
      = rest.length + 2 := by simp
  have hlast : ((p.2, p.1) :: ((rest.map fun q => (q.2, q.1)) ++ [(p.2, p.1)])).getD
      (rest.length + 1) (0, 0) = (p.2, p.1) := by
    rw [List.getD_cons_succ, List.getD_append_right _ _ _ _ (by simp)]
    simp
  unfold polygonCheck
  rw [hlen, if_neg (by omega), show rest.length + 2 - 1 = rest.length + 1 by omega,
    hlast]
  rw [if_neg (by simp)]

/-- Claim C5: the measurement derivation never propagates an exception:
with the turf ring validation modelled explicitly, every point sequence
passes it (the component always closes the ring it hands to the library),
so the guarded computation returns exactly what `compute` returns and the
catch branch is never taken.  (NaN coordinates have no counterpart in the
exact real embedding; on reals every degenerate input — collinear,
antipodal, duplicated points — is covered.) -/
theorem computeE_never_raises (pts : List GeoPoint) :
    computeE pts = Except.ok (compute pts) := by
  unfold computeE
  split
  case isTrue h =>
    obtain ⟨p, rest, rfl⟩ : ∃ p rest, pts = p :: rest := by
      cases pts with
      | nil => simp at h
      | cons a l => exact ⟨a, l, rfl⟩
    have h2 : 2 ≤ rest.length := by
      simp only [List.length_cons] at h
      omega
    rw [polygonCheck_closedRing p rest h2]
  case isFalse h => rfl

/-- Claim C7: for every sequence of at least three points the computed
area is nonnegative, every cyclic rotation of the sequence yields exactly
the same area (exact reals: equal, hence within any tolerance), and the
component renders that area as its display text. -/
theorem compute_area_nonneg_rotation_invariant (pts : List GeoPoint) (k : ℕ)
    (h : 3 ≤ pts.length) :
    0 ≤ areaOf pts ∧ areaOf (pts.rotate k) = areaOf pts ∧
      ∃ r, compute pts = some r ∧ r.text = formatAreaText (areaOf pts) := by
  have hne : pts ≠ [] := by
    intro h0
    rw [h0] at h
    simp at h
  refine ⟨?_, ?_, ?_⟩
  · unfold areaOf turfAreaPoly
    exact abs_nonneg _
  · rw [areaOf_closed pts h,
      areaOf_closed (pts.rotate k) (by rw [List.length_rotate]; exact h),
      List.map_rotate, cycSum_rotate _ (by simp [hne]) k]
  · refine ⟨⟨formatAreaText (areaOf pts), ((centerOf pts).2, (centerOf pts).1)⟩,
      ?_, rfl⟩
    unfold compute
    rw [if_pos h]

/-- Witness for C7 at a concrete triangle, rotated by one. -/
theorem compute_area_nonneg_rotation_invariant_witness :
    3 ≤ ([((3 : ℝ), 0), ((4 : ℝ), 0), ((3 : ℝ), 1)] : List GeoPoint).length ∧
      (0 ≤ areaOf [((3 : ℝ), 0), ((4 : ℝ), 0), ((3 : ℝ), 1)] ∧
        areaOf ([((3 : ℝ), 0), ((4 : ℝ), 0), ((3 : ℝ), 1)].rotate 1) =
          areaOf [((3 : ℝ), 0), ((4 : ℝ), 0), ((3 : ℝ), 1)] ∧
        ∃ r, compute [((3 : ℝ), 0), ((4 : ℝ), 0), ((3 : ℝ), 1)] = some r ∧
          r.text = formatAreaText (areaOf [((3 : ℝ), 0), ((4 : ℝ), 0), ((3 : ℝ), 1)])) :=
  ⟨by decide, compute_area_nonneg_rotation_invariant _ 1 (by decide)⟩

/-- Claim C9: for every sequence of length 0 or 1, the measurement
derivation produces nothing: no value, no display string, no anchor. -/
theorem compute_short_sequence_none (pts : List GeoPoint) (h : pts.length < 2) :
    compute pts = none := by
  unfold compute
  rw [if_neg (by omega), if_neg (by omega)]

/-- Witness for C9 at the empty sequence. -/
theorem compute_short_sequence_none_witness :
    ([] : List GeoPoint).length < 2 ∧ compute ([] : List GeoPoint) = none :=
  ⟨by decide, compute_short_sequence_none [] (by decide)⟩

/-- Counterexample to claim C3: the click handler performs no coordinate
validation.  A point with latitude 200 (outside `[-90, 90]`) is appended
while measuring, so the sequence does not stay unchanged. -/
theorem handleClick_accepts_out_of_range :
    handleClick true [] ((200 : ℝ), 0) = [((200 : ℝ), 0)] ∧
      invalidCoord ((200 : ℝ), 0) ∧ ([((200 : ℝ), 0)] : List GeoPoint) ≠ [] := by
  refine ⟨rfl, fun hc => ?_, by simp⟩
  have := hc.2.1
  norm_num at this

/-- Claim C3 amended: the append boundary rejects nothing.  While
measuring, an append event carrying an invalid coordinate appends the
point like any other, changing the sequence; validity is never checked. -/
theorem handleClick_appends_invalid (pts : List GeoPoint) (p : GeoPoint)
    (h : invalidCoord p) :
    handleClick true pts p = pts ++ [p] ∧ handleClick true pts p ≠ pts := by
  refine ⟨rfl, ?_⟩
  intro hEq
  have := congrArg List.length hEq
  simp [handleClick] at this

/-- Witness for the amended C3 at latitude 200. -/
theorem handleClick_appends_invalid_witness :
    invalidCoord ((200 : ℝ), 0) ∧
      (handleClick true [((0 : ℝ), 0)] ((200 : ℝ), 0) =
          [((0 : ℝ), 0)] ++ [((200 : ℝ), 0)] ∧
        handleClick true [((0 : ℝ), 0)] ((200 : ℝ), 0) ≠ [((0 : ℝ), 0)]) := by
  have h : invalidCoord ((200 : ℝ), 0) := by
    intro hc
    have := hc.2.1
    norm_num at this
  exact ⟨h, handleClick_appends_invalid _ _ h⟩

theorem bbox_components (l : List (ℝ × ℝ)) (b : BBox) :
    (l.foldl bboxStep b).minX = l.foldl (fun m q => min m q.1) b.minX ∧
      (l.foldl bboxStep b).minY = l.foldl (fun m q => min m q.2) b.minY ∧
      (l.foldl bboxStep b).maxX = l.foldl (fun m q => max m q.1) b.maxX ∧
      (l.foldl bboxStep b).maxY = l.foldl (fun m q => max m q.2) b.maxY := by
  induction l generalizing b with
  | nil => exact ⟨rfl, rfl, rfl, rfl⟩
  | cons x xs ih =>
    simp only [List.foldl_cons]
    exact ih (bboxStep b x)

theorem foldl_min_le (f : ℝ × ℝ → ℝ) (l : List (ℝ × ℝ)) (a : ℝ) :
    l.foldl (fun m q => min m (f q)) a ≤ a := by
  induction l generalizing a with
  | nil => simp
  | cons x xs ih =>
    simp only [List.foldl_cons]
    exact le_trans (ih (min a (f x))) (min_le_left _ _)

theorem le_foldl_max (f : ℝ × ℝ → ℝ) (l : List (ℝ × ℝ)) (a : ℝ) :
    a ≤ l.foldl (fun m q => max m (f q)) a := by
  induction l generalizing a with
  | nil => simp
  | cons x xs ih =>
    simp only [List.foldl_cons]
    exact le_trans (le_max_left _ _) (ih (max a (f x)))

theorem closedRing_cons (p : GeoPoint) (rest : List GeoPoint) :
    closedRing (p :: rest) =
      (p.2, p.1) :: (rest ++ [p]).map (fun q => (q.2, q.1)) := by
  simp [closedRing]

theorem turfBbox_closedRing_cons (p : GeoPoint) (rest : List GeoPoint) :
    turfBbox (closedRing (p :: rest)) =
      ((rest ++ [p]).map fun q => (q.2, q.1)).foldl bboxStep
        ⟨p.2, p.1, p.2, p.1⟩ := by
  rw [closedRing_cons]
  rfl

theorem bbox_closedRing (p : GeoPoint) (rest : List GeoPoint) :
    (turfBbox (closedRing (p :: rest))).minY =
        listLow ((p :: rest).map Prod.fst) ∧
      (turfBbox (closedRing (p :: rest))).maxY =
        listHigh ((p :: rest).map Prod.fst) ∧
      (turfBbox (closedRing (p :: rest))).minX =
        listLow ((p :: rest).map Prod.snd) ∧
      (turfBbox (closedRing (p :: rest))).maxX =
        listHigh ((p :: rest).map Prod.snd) := by
  rw [turfBbox_closedRing_cons]
  obtain ⟨hx, hy, hX, hY⟩ :=
    bbox_components ((rest ++ [p]).map fun q => (q.2, q.1)) ⟨p.2, p.1, p.2, p.1⟩
  have habsLoLat := foldl_min_le (fun q => q.1) rest p.1
  have habsHiLat := le_foldl_max (fun q => q.1) rest p.1
  have habsLoLng := foldl_min_le (fun q => q.2) rest p.2
  have habsHiLng := le_foldl_max (fun q => q.2) rest p.2
  refine ⟨?_, ?_, ?_, ?_⟩
  · rw [hy]
    simp only [List.foldl_map, List.foldl_append, List.foldl_cons, List.foldl_nil]
    rw [min_eq_left habsLoLat]
    simp only [List.map_cons, listLow, List.foldl_map]
  · rw [hY]
    simp only [List.foldl_map, List.foldl_append, List.foldl_cons, List.foldl_nil]
    rw [max_eq_left habsHiLat]
    simp only [List.map_cons, listHigh, List.foldl_map]
  · rw [hx]
    simp only [List.foldl_map, List.foldl_append, List.foldl_cons, List.foldl_nil]
    rw [min_eq_left habsLoLng]
    simp only [List.map_cons, listLow, List.foldl_map]
  · rw [hX]
    simp only [List.foldl_map, List.foldl_append, List.foldl_cons, List.foldl_nil]
    rw [max_eq_left habsHiLng]
    simp only [List.map_cons, listHigh, List.foldl_map]

/-- Counterexample to claim C2: for the triangle (0,0), (4,0), (0,4) the
label anchor the code computes (the turf bounding-box center) is (2, 2),
while the geometric centroid of the closed ring is (4/3, 4/3). -/
theorem compute_area_anchor_ne_centroid :
    (compute [((0 : ℝ), 0), ((4 : ℝ), 0), ((0 : ℝ), 4)]).map Computed.anchor =
        some (((2 : ℝ), (2 : ℝ))) ∧
      ringCentroid [((0 : ℝ), 0), ((4 : ℝ), 0), ((0 : ℝ), 4)] =
        ((4 / 3 : ℝ), (4 / 3 : ℝ)) ∧
      (((2 : ℝ), (2 : ℝ)) : GeoPoint) ≠ ((4 / 3 : ℝ), (4 / 3 : ℝ)) := by
  refine ⟨?_, ?_, ?_⟩
  · unfold compute
    rw [if_pos (by simp)]
    simp only [Option.map_some']
    unfold centerOf turfCenter
    have hring : closedRing [((0 : ℝ), 0), ((4 : ℝ), 0), ((0 : ℝ), 4)] =
        [((0 : ℝ), (0 : ℝ)), (0, 4), (4, 0), (0, 0)] := by
      simp [closedRing]
    rw [hring]
    unfold turfBbox
    simp only [List.foldl_cons, List.foldl_nil, bboxStep]
    norm_num [min_def, max_def]
  · unfold ringCentroid
    norm_num [Finset.sum_range_succ, List.getD]
  · intro hEq
    rw [Prod.mk.injEq] at hEq
    have := hEq.1
    norm_num at this

/-- Claim C2 amended: for every sequence of length at least three, the
anchor attached to the area result is the midpoint of the bounding box of
the ring — latitude midway between the smallest and largest latitude,
longitude midway between the smallest and largest longitude — not the
geometric centroid. -/
theorem compute_area_anchor_eq_bbox_center (pts : List GeoPoint)
    (h : 3 ≤ pts.length) :
    (compute pts).map Computed.anchor =
      some (((listLow (pts.map Prod.fst) + listHigh (pts.map Prod.fst)) / 2,
        (listLow (pts.map Prod.snd) + listHigh (pts.map Prod.snd)) / 2)) := by
  obtain ⟨p, rest, rfl⟩ : ∃ p rest, pts = p :: rest := by
    cases pts with
    | nil => simp at h
    | cons a l => exact ⟨a, l, rfl⟩
  unfold compute
  rw [if_pos h]
  simp only [Option.map_some']
  obtain ⟨h1, h2, h3, h4⟩ := bbox_closedRing p rest
  unfold centerOf turfCenter
  dsimp only
  rw [h1, h2, h3, h4]

/-- Witness for the amended C2 at a concrete three-point sequence. -/
theorem compute_area_anchor_eq_bbox_center_witness :
    3 ≤ ([((0 : ℝ), 0), ((2 : ℝ), 0), ((0 : ℝ), 2)] : List GeoPoint).length ∧
      (compute [((0 : ℝ), 0), ((2 : ℝ), 0), ((0 : ℝ), 2)]).map Computed.anchor =
        some (((listLow ([((0 : ℝ), 0), ((2 : ℝ), 0), ((0 : ℝ), 2)].map Prod.fst) +
            listHigh ([((0 : ℝ), 0), ((2 : ℝ), 0), ((0 : ℝ), 2)].map Prod.fst)) / 2,
          (listLow ([((0 : ℝ), 0), ((2 : ℝ), 0), ((0 : ℝ), 2)].map Prod.snd) +
            listHigh ([((0 : ℝ), 0), ((2 : ℝ), 0), ((0 : ℝ), 2)].map Prod.snd)) / 2)) :=
  ⟨by decide, compute_area_anchor_eq_bbox_center _ (by decide)⟩

/-- Counterexample to claim C4: the Stop action (toggling Measure off from
the Collecting state) leaves the collected points in place instead of
dropping them. -/
theorem stop_keeps_points_cex :
    (toggleMeasure ⟨true, [((1 : ℝ), 2)]⟩).isMeasuring = false ∧
      (toggleMeasure ⟨true, [((1 : ℝ), 2)]⟩).points = [((1 : ℝ), 2)] ∧
      [((1 : ℝ), 2)] ≠ ([] : List GeoPoint) := by
  exact ⟨rfl, rfl, by simp⟩

/-- Claim C4 amended: from a Collecting session, Clear drops all points
and returns to Idle, while Stop returns to Idle but keeps the point list
unchanged (it is only emptied again when a new session starts). -/
theorem clear_resets_stop_keeps_points (s : Session) :
    clearMeasurements s = ⟨false, []⟩ ∧
      (s.isMeasuring = true → toggleMeasure s = ⟨false, s.points⟩) := by
  refine ⟨rfl, fun h => ?_⟩
  simp [toggleMeasure, h]

/-- Witness for the amended C4 at a one-point Collecting session. -/
theorem clear_resets_stop_keeps_points_witness :
    (⟨true, [((3 : ℝ), 4)]⟩ : Session).isMeasuring = true ∧
      (clearMeasurements ⟨true, [((3 : ℝ), 4)]⟩ = ⟨false, []⟩ ∧
        ((⟨true, [((3 : ℝ), 4)]⟩ : Session).isMeasuring = true →
          toggleMeasure ⟨true, [((3 : ℝ), 4)]⟩ =
            ⟨false, (⟨true, [((3 : ℝ), 4)]⟩ : Session).points⟩)) :=
  ⟨rfl, clear_resets_stop_keeps_points _⟩

/-- Claim C10: Clear empties the point list and exits measuring mode in
one step; a freshly started session begins with an empty list; and after
Clear, clicks append nothing because the handler ignores clicks outside
measuring mode. -/
theorem clear_exits_and_start_empties (s t : Session) (p : GeoPoint) :
    (clearMeasurements s).points = [] ∧
      (clearMeasurements s).isMeasuring = false ∧
      (t.isMeasuring = false →
        (toggleMeasure t).isMeasuring = true ∧ (toggleMeasure t).points = []) ∧
      handleClick (clearMeasurements s).isMeasuring (clearMeasurements s).points p =
        (clearMeasurements s).points := by
  refine ⟨rfl, rfl, fun h => ?_, rfl⟩
  constructor <;> simp [toggleMeasure, h]

/-- Witness for C10 at concrete sessions. -/
theorem clear_exits_and_start_empties_witness :
    (⟨false, [((5 : ℝ), 6)]⟩ : Session).isMeasuring = false ∧
      ((clearMeasurements ⟨true, [((1 : ℝ), 1)]⟩).points = [] ∧
        (clearMeasurements ⟨true, [((1 : ℝ), 1)]⟩).isMeasuring = false ∧
        ((⟨false, [((5 : ℝ), 6)]⟩ : Session).isMeasuring = false →
          (toggleMeasure ⟨false, [((5 : ℝ), 6)]⟩).isMeasuring = true ∧
            (toggleMeasure ⟨false, [((5 : ℝ), 6)]⟩).points = []) ∧
        handleClick (clearMeasurements ⟨true, [((1 : ℝ), 1)]⟩).isMeasuring
            (clearMeasurements ⟨true, [((1 : ℝ), 1)]⟩).points ((2 : ℝ), 3) =
          (clearMeasurements ⟨true, [((1 : ℝ), 1)]⟩).points) :=
  ⟨rfl, clear_exits_and_start_empties _ _ _⟩

end Agrsetumap
